import Mathlib

/-!
Verification of the browser-automation orchestration engine
(background orchestration, error handling and LLM service layer).

Each definition is a shallow embedding of the corresponding JavaScript
function; machine-level JS details (numbers, truthiness, host callbacks)
are made explicit.  Asynchronous host calls (the page-side content
script, the LLM HTTP endpoint, timers) are modelled by explicit
parameters carrying their outcome.
-/

set_option linter.unusedVariables false

/-- A browser command as produced by the planner
(`action` is one of "navigate", "click", "fill", plus the
diagnostic pseudo-action "error"; the optional fields mirror the
JS object's optional properties). -/
structure Command where
  action : String
  url : Option String := none
  xpath : Option String := none
  description : Option String := none
  value : Option String := none
deriving DecidableEq, Repr

/-- Result of executing one command (src/background/background.js). -/
structure CommandResult where
  success : Bool
  action : String := ""
  error : Option String := none
  navigated : Option Bool := none
deriving DecidableEq, Repr

/-- Loop body of `splitCommandsAtNavigation` (background.js:743-764):
`groups` are the groups already closed, `current` the group being
accumulated; every command is appended to `current`, and a group is
closed immediately after a command whose action is "navigate";
a non-empty remainder becomes the final group. -/
def splitGo : List (List Command) → List Command → List Command → List (List Command)
  | groups, current, [] =>
      if current.length > 0 then groups ++ [current] else groups
  | groups, current, command :: rest =>
      let current' := current ++ [command]
      if command.action = "navigate" then
        splitGo (groups ++ [current']) [] rest
      else
        splitGo groups current' rest

/-- `splitCommandsAtNavigation(commands)` (background.js:743-764). -/
def splitCommandsAtNavigation (commands : List Command) : List (List Command) :=
  splitGo [] [] commands

/-- Concatenating the split starting from any accumulator state
recovers accumulator plus input. -/
theorem splitGo_flatten (cmds : List Command) :
    ∀ (groups : List (List Command)) (current : List Command),
      (splitGo groups current cmds).flatten = groups.flatten ++ current ++ cmds := by
  induction cmds with
  | nil =>
      intro groups current
      by_cases h : current.length > 0
      · simp [splitGo, h]
      · have hc : current = [] := by
          cases current with
          | nil => rfl
          | cons a l => simp at h
        simp [splitGo, h, hc]
  | cons c rest ih =>
      intro groups current
      by_cases h : c.action = "navigate"
      · simp [splitGo, h, ih]
      · simp [splitGo, h, ih]

/-- C3: for every list of commands, concatenating in order the groups
returned by `splitCommandsAtNavigation` yields exactly the original
command list (no command dropped, duplicated or reordered). -/
theorem splitCommandsAtNavigation_flatten (commands : List Command) :
    (splitCommandsAtNavigation commands).flatten = commands := by
  simpa using splitGo_flatten commands [] []

/-- Whether a command is a navigation command. -/
def isNavigate (command : Command) : Bool :=
  command.action = "navigate"

/-- Well-formedness of one produced group: non-empty, and no navigate
command anywhere before its last element. -/
def groupOk (g : List Command) : Prop :=
  g ≠ [] ∧ ∀ c ∈ g.dropLast, isNavigate c = false

/-- Every group the splitting loop emits is well formed, provided the
current partial group contains no navigate command; moreover every
group except possibly the last one ends in a navigate command. -/
theorem splitGo_groups_ok (cmds : List Command) :
    ∀ (groups : List (List Command)) (current : List Command),
      (∀ g ∈ groups, groupOk g) →
      (∀ g ∈ groups, ∃ last, g.getLast? = some last ∧ isNavigate last = true) →
      (∀ c ∈ current, isNavigate c = false) →
      (∀ g ∈ splitGo groups current cmds, groupOk g) ∧
      (∀ g ∈ (splitGo groups current cmds).dropLast,
        ∃ last, g.getLast? = some last ∧ isNavigate last = true) := by
  induction cmds with
  | nil =>
      intro groups current hok hnav hcur
      by_cases h : current.length > 0
      · constructor
        · intro g hg
          simp only [splitGo, h, if_pos] at hg
          rcases List.mem_append.mp hg with hgl | hgr
          · exact hok g hgl
          · have hge : g = current := by simpa using hgr
            subst hge
            refine ⟨?_, ?_⟩
            · intro hnil
              rw [hnil] at h
              simp at h
            · intro c hc
              exact hcur c (List.dropLast_subset _ hc)
        · intro g hg
          simp only [splitGo, h, if_pos] at hg
          rw [List.dropLast_concat] at hg
          exact hnav g hg
      · have hc : current = [] := List.length_eq_zero.mp (by omega)
        subst hc
        constructor
        · intro g hg
          simp only [splitGo] at hg
          exact hok g (by simpa using hg)
        · intro g hg
          simp only [splitGo] at hg
          exact hnav g (List.dropLast_subset _ (by simpa using hg))
  | cons c rest ih =>
      intro groups current hok hnav hcur
      by_cases h : c.action = "navigate"
      · simp only [splitGo, h, if_pos]
        apply ih
        · intro g hg
          rcases List.mem_append.mp hg with hgl | hgr
          · exact hok g hgl
          · have hge : g = current ++ [c] := by simpa using hgr
            subst hge
            refine ⟨by simp, ?_⟩
            intro d hd
            rw [List.dropLast_concat] at hd
            exact hcur d hd
        · intro g hg
          rcases List.mem_append.mp hg with hgl | hgr
          · exact hnav g hgl
          · have hge : g = current ++ [c] := by simpa using hgr
            subst hge
            exact ⟨c, by simp, by simp [isNavigate, h]⟩
        · intro d hd
          simp at hd
      · simp only [splitGo, h, if_neg, if_false, Bool.false_eq_true, not_false_eq_true]
        apply ih
        · exact hok
        · exact hnav
        · intro d hd
          rcases List.mem_append.mp hd with hdl | hdr
          · exact hcur d hdl
          · have hde : d = c := by simpa using hdr
            subst hde
            simp [isNavigate, h]

/-- C8: every group produced by `splitCommandsAtNavigation` is
non-empty and contains a navigate command only as its last element
(hence at most one navigate per group), and every group except
possibly the final one ends with a navigate command. -/
theorem splitCommandsAtNavigation_group_invariant (commands : List Command) :
    (∀ g ∈ splitCommandsAtNavigation commands,
      g ≠ [] ∧ (∀ c ∈ g.dropLast, isNavigate c = false) ∧
      (g.filter isNavigate).length ≤ 1) ∧
    (∀ g ∈ (splitCommandsAtNavigation commands).dropLast,
      ∃ last, g.getLast? = some last ∧ isNavigate last = true) := by
  have h := splitGo_groups_ok commands [] []
    (by intro g hg; simp at hg) (by intro g hg; simp at hg) (by intro d hd; simp at hd)
  refine ⟨?_, h.2⟩
  intro g hg
  obtain ⟨hne, hdrop⟩ := h.1 g hg
  refine ⟨hne, hdrop, ?_⟩
  have hgl : g.dropLast ++ [g.getLast hne] = g := List.dropLast_append_getLast hne
  have hfl : g.dropLast.filter isNavigate = [] := by
    apply List.filter_eq_nil_iff.mpr
    intro a ha
    simp [hdrop a ha]
  calc (g.filter isNavigate).length
      = ((g.dropLast ++ [g.getLast hne]).filter isNavigate).length := by rw [hgl]
    _ = (([g.getLast hne]).filter isNavigate).length := by
          rw [List.filter_append, hfl]
          simp
    _ ≤ ([g.getLast hne]).length := List.length_filter_le _ _
    _ = 1 := by simp

/-- A plan object returned by the LLM layer; every field is optional
because the parsed JSON may omit any of them. -/
structure Plan where
  commands : Option (List Command) := none
  isComplete : Option Bool := none
  completionMessage : Option String := none
deriving DecidableEq, Repr

/-- Substring test, modelling JS `String.prototype.includes`. -/
def strContains (s pat : String) : Bool :=
  (List.range (s.length + 1)).any (fun i => pat.data.isPrefixOf (s.data.drop i))

/-- Outcome of racing the content-script dispatch against the timeout
timer (background.js:994-997): either the dispatch promise settled
first (resolving with a result or rejecting with an error message),
or the timer fired first. -/
inductive RaceOutcome where
  | dispatched (response : Except String CommandResult)
  | timedOut
deriving Repr

/-- `executeSingleCommand(tabId, command)` (background.js:985-1017),
with the raced host interaction supplied as `outcome`.  A rejection is
reinterpreted as a successful navigation exactly when the command is a
navigate and the message contains "message port closed"; the timer
path rejects with the fixed timeout message. -/
def executeSingleCommand (command : Command) (outcome : RaceOutcome) : CommandResult :=
  let isNavigation := command.action = "navigate"
  let timeout : Nat := if isNavigation then 30000 else 15000
  let handleError := fun (msg : String) =>
    if isNavigation ∧ strContains msg "message port closed" = true then
      { success := true, action := command.action, navigated := some true : CommandResult }
    else
      { success := false, action := command.action, error := some msg : CommandResult }
  match outcome with
  | RaceOutcome.dispatched (Except.ok r) => r
  | RaceOutcome.dispatched (Except.error msg) => handleError msg
  | RaceOutcome.timedOut =>
      handleError ("Command execution timed out after " ++ toString timeout ++ "ms")

/-- The error message produced by a failing race outcome
(rejection message, or the timeout message for the timer path);
`none` when the dispatch resolved normally. -/
def raceFailureMessage (command : Command) (outcome : RaceOutcome) : Option String :=
  match outcome with
  | RaceOutcome.dispatched (Except.ok _) => none
  | RaceOutcome.dispatched (Except.error msg) => some msg
  | RaceOutcome.timedOut =>
      some ("Command execution timed out after "
        ++ toString (if command.action = "navigate" then (30000 : Nat) else 15000) ++ "ms")

/-- C4: whenever the bounded wait elapses or the dispatch errors,
`executeSingleCommand` returns a failure carrying the error message,
unless the command is a navigate and the message indicates the
communication channel closed mid-navigation, in which case the outcome
is `{success := true, navigated := true}`; an elapsed wait alone (whose
message never mentions the closed channel) is always a failure. -/
theorem executeSingleCommand_failure_handling (command : Command)
    (outcome : RaceOutcome) (msg : String)
    (h : raceFailureMessage command outcome = some msg) :
    executeSingleCommand command outcome =
      (if command.action = "navigate" ∧ strContains msg "message port closed" = true then
        { success := true, action := command.action, navigated := some true }
      else
        { success := false, action := command.action, error := some msg }) ∧
    (outcome = RaceOutcome.timedOut →
      (executeSingleCommand command outcome).success = false) := by
  cases outcome with
  | dispatched response =>
      cases response with
      | ok r => simp [raceFailureMessage] at h
      | error m =>
          have hm : m = msg := by simpa [raceFailureMessage] using h
          subst hm
          refine ⟨rfl, ?_⟩
          intro hc
          exact absurd hc (by simp)
  | timedOut =>
      by_cases hn : command.action = "navigate"
      · have hs : ("Command execution timed out after " ++ toString (30000 : Nat) ++ "ms")
            = "Command execution timed out after 30000ms" := rfl
        have hmsg : msg = "Command execution timed out after 30000ms" := by
          simp [raceFailureMessage, hn] at h
          exact h.symm
        subst hmsg
        have hnc : strContains "Command execution timed out after 30000ms"
            "message port closed" = false := by decide
        constructor
        · simp [executeSingleCommand, hn, hs, hnc]
        · intro hc
          simp [executeSingleCommand, hn, hs, hnc]
      · have hs : ("Command execution timed out after " ++ toString (15000 : Nat) ++ "ms")
            = "Command execution timed out after 15000ms" := rfl
        have hmsg : msg = "Command execution timed out after 15000ms" := by
          simp [raceFailureMessage, hn] at h
          exact h.symm
        subst hmsg
        constructor
        · simp [executeSingleCommand, hn, hs]
        · intro hc
          simp [executeSingleCommand, hn, hs]

/-- Witness for C4: a click whose dispatch rejects with a plain error
message yields a failure result carrying that message. -/
theorem executeSingleCommand_failure_handling_witness :
    executeSingleCommand { action := "click" }
        (RaceOutcome.dispatched (Except.error "boom")) =
      { success := false, action := "click", error := some "boom" } := by
  have h := executeSingleCommand_failure_handling { action := "click" }
    (RaceOutcome.dispatched (Except.error "boom")) "boom" rfl
  have h1 := h.1
  rw [if_neg (by decide)] at h1
  exact h1

/-- Page context, replaced wholesale after navigation or stabilization
(only its identity matters to the session claims). -/
structure PageContext where
  url : String := ""
  title : String := ""
deriving DecidableEq, Repr

/-- One entry of the session's action history. -/
structure ActionRecord where
  command : Command
  result : CommandResult
deriving DecidableEq, Repr

/-- Process-wide session state (background.js:7-11); `initialPrompt`
starts out as `null`, modelled by `none`. -/
structure Session where
  initialPrompt : Option String := none
  actionHistory : List ActionRecord := []
  lastPageContext : Option PageContext := none
deriving DecidableEq, Repr

/-- JS truthiness of a possibly-null string: `null`, `undefined` and
the empty string are falsy. -/
def jsTruthyStr : Option String → Bool
  | none => false
  | some s => !s.isEmpty

/-- Session setup of `handleUserPrompt` (background.js:137-148,
identically src/unnamed/part_000:191-202): if `!initialPrompt ||
resetSession` a fresh session replaces the old one, otherwise only
`lastPageContext` is refreshed.  Returns the updated session and
`isNewSession`. -/
def setupSession (sessionHistory : Session) (prompt : String)
    (resetSession : Bool) (pageContext : Option PageContext) : Session × Bool :=
  let isNewSession := !jsTruthyStr sessionHistory.initialPrompt || resetSession
  if isNewSession then
    ({ initialPrompt := some prompt, actionHistory := [],
       lastPageContext := pageContext }, true)
  else
    ({ sessionHistory with lastPageContext := pageContext }, false)

/-- C9: with `resetSession` false and a prior (truthy) `initialPrompt`,
session setup keeps `initialPrompt` and `actionHistory` and replaces
only `lastPageContext`; otherwise the whole session is replaced by a
fresh one seeded with the new prompt and an empty history. -/
theorem setupSession_frame (s : Session) (prompt : String)
    (resetSession : Bool) (pageContext : Option PageContext) :
    setupSession s prompt resetSession pageContext =
      if resetSession = false ∧ jsTruthyStr s.initialPrompt = true then
        ({ initialPrompt := s.initialPrompt, actionHistory := s.actionHistory,
           lastPageContext := pageContext }, false)
      else
        ({ initialPrompt := some prompt, actionHistory := [],
           lastPageContext := pageContext }, true) := by
  cases resetSession with
  | false =>
      cases ht : jsTruthyStr s.initialPrompt with
      | false => simp [setupSession, ht]
      | true => simp [setupSession, ht]
  | true =>
      cases ht : jsTruthyStr s.initialPrompt with
      | false => simp [setupSession, ht]
      | true => simp [setupSession, ht]

/-- Result record of `executeCommandsWithOrchestration`
(background.js:448-530). -/
structure OrchResults where
  success : Bool
  commandResults : List CommandResult
  isComplete : Bool
  completionMessage : String
  error : Option String := none
deriving DecidableEq, Repr

/-- JS `x || d` for a possibly-absent boolean `x`: yields `x` when
truthy, `d` otherwise. -/
def jsOrBool : Option Bool → Bool → Bool
  | some true, _ => true
  | _, d => d

/-- JS `x || d` for a possibly-absent string `x` (empty string is
falsy). -/
def jsOrStr : Option String → String → String
  | some s, d => if s.isEmpty then d else s
  | none, d => d

/-- The catch branch of `executeCommandsWithOrchestration`
(background.js:520-529): any error thrown inside the try body is
turned into a failure result carrying the error message. -/
def orchCatch (msg : String) : OrchResults :=
  { success := false
    commandResults := []
    isComplete := false
    completionMessage := "Error during execution: " ++ msg
    error := some msg }

/-- `executeCommandsWithOrchestration(tabId, structuredCommands)`
(background.js:448-530).  The try body first awaits
`ensureContentScriptInjected(tabId)` — which throws on restricted
pages (background.js:1154) and on failed injection
(background.js:1226); its outcome is the explicit `injection`
parameter.  Then the guard `!structuredCommands.commands?.length`
returns the early result with `isComplete :=
structuredCommands.isComplete || true`; the non-empty branch (the
sequential group loop with navigation handling, which awaits the
host) is abstracted as the `runGroups` continuation applied to the
navigation split, with `Except.error` standing for a throw escaping
the loop.  Any thrown error lands in the catch (`orchCatch`). -/
def executeCommandsWithOrchestration (structuredCommands : Plan)
    (injection : Except String Unit)
    (runGroups : List (List Command) → Except String OrchResults) : OrchResults :=
  match injection with
  | Except.error msg => orchCatch msg
  | Except.ok _ =>
    let cmds := structuredCommands.commands.getD []
    if cmds.length = 0 then
      { success := true
        commandResults := []
        isComplete := jsOrBool structuredCommands.isComplete true
        completionMessage :=
          jsOrStr structuredCommands.completionMessage "No commands to execute" }
    else
      match runGroups (splitCommandsAtNavigation cmds) with
      | Except.ok results => results
      | Except.error msg => orchCatch msg

/-- Truthy-or-true can never be false. -/
theorem jsOrBool_true (x : Option Bool) : jsOrBool x true = true := by
  cases x with
  | none => rfl
  | some b => cases b <;> rfl

/-- C10 counterexample: an empty plan does NOT always resolve to
`{success := true, isComplete := true}` — on a restricted page the
awaited content-script injection throws before the empty-commands
guard is reached, and the catch reports
`{success := false, isComplete := false}` with the error message. -/
theorem executeCommandsWithOrchestration_restricted_counterexample :
    executeCommandsWithOrchestration
        { commands := some [], isComplete := some false }
        (Except.error "Cannot execute on this page (chrome://). Please navigate to a regular website.")
        (fun _ => Except.error "unreachable") =
      { success := false, commandResults := [], isComplete := false,
        completionMessage := "Error during execution: Cannot execute on this page (chrome://). Please navigate to a regular website.",
        error := some "Cannot execute on this page (chrome://). Please navigate to a regular website." } ∧
    (executeCommandsWithOrchestration
        { commands := some [], isComplete := some false }
        (Except.error "Cannot execute on this page (chrome://). Please navigate to a regular website.")
        (fun _ => Except.error "unreachable")).success = false :=
  ⟨rfl, rfl⟩

/-- C10 amended: once the awaited content-script injection has
succeeded, a plan with empty or absent commands resolves to
`{success := true, commandResults := [], isComplete := true}` no matter
what the plan's own `isComplete` flag says — `isComplete || true`
cannot yield `false`. -/
theorem executeCommandsWithOrchestration_empty (plan : Plan)
    (runGroups : List (List Command) → Except String OrchResults)
    (h : plan.commands = none ∨ plan.commands = some []) :
    executeCommandsWithOrchestration plan (Except.ok ()) runGroups =
      { success := true, commandResults := [], isComplete := true,
        completionMessage :=
          jsOrStr plan.completionMessage "No commands to execute" } := by
  rcases h with h | h <;>
    simp [executeCommandsWithOrchestration, h, jsOrBool_true]

/-- Witness for C10: with the injection succeeded, an empty plan
explicitly carrying `isComplete := false` is still reported back with
`isComplete := true`. -/
theorem executeCommandsWithOrchestration_empty_witness :
    executeCommandsWithOrchestration
        { commands := some [], isComplete := some false }
        (Except.ok ())
        (fun _ => Except.ok { success := false, commandResults := [],
                              isComplete := false, completionMessage := "" }) =
      { success := true, commandResults := [], isComplete := true,
        completionMessage := "No commands to execute" } :=
  executeCommandsWithOrchestration_empty
    { commands := some [], isComplete := some false }
    (fun _ => Except.ok { success := false, commandResults := [],
                          isComplete := false, completionMessage := "" })
    (Or.inr rfl)

/-- Error kinds (src/unnamed/part_002:11-37, `ErrorType`). -/
inductive ErrorType where
  | UNKNOWN
  | VALIDATION
  | TIMEOUT
  | AUTHENTICATION
  | PERMISSION
  | RATE_LIMIT
  | SERVER
  | NETWORK
  | CONFIGURATION
  | SERVICE_UNAVAILABLE
  | COMMAND_EXECUTION
  | NAVIGATION
  | ELEMENT_NOT_FOUND
  | PAGE_LOAD
  | STATE_SYNCHRONIZATION
  | STORAGE
deriving DecidableEq, Repr

/-- `AppError` (src/unnamed/part_002:42-68); the fields a claim can
observe. -/
structure AppError where
  message : String := ""
  type : ErrorType := ErrorType.UNKNOWN
  retryable : Bool := true
deriving DecidableEq, Repr

/-- JS `Math.min` on two (non-NaN) numbers. -/
def mathMin (a b : ℚ) : ℚ := if a ≤ b then a else b

/-- `mathMin` agrees with the order-theoretic minimum. -/
theorem mathMin_eq_min (a b : ℚ) : mathMin a b = min a b := by
  rw [mathMin, min_def]

/-- `AppError.getBackoffTime(attempt)` (src/unnamed/part_002:133-149).
The default branch adds `Math.random() * 500` of jitter; the sampled
jitter value is passed explicitly as `jitter ∈ [0, 500)`.  Rationals
stand for JS floating-point arithmetic, which is exact on these
magnitudes. -/
def AppError.getBackoffTime (e : AppError) (attempt : Nat) (jitter : ℚ) : ℚ :=
  let baseBackoff : ℚ := 1000
  match e.type with
  | ErrorType.RATE_LIMIT => mathMin 30000 (baseBackoff * 2 ^ attempt)
  | ErrorType.SERVER => mathMin 15000 (baseBackoff * (3 / 2) ^ attempt)
  | _ => mathMin 10000 (baseBackoff * (3 / 2) ^ attempt + jitter)

/-- `AppError.shouldRetry({attempt, maxAttempts})`
(src/unnamed/part_002:98-126); JS defaults are attempt 1,
maxAttempts 3. -/
def AppError.shouldRetry (e : AppError) (attempt : Nat) (maxAttempts : Nat) : Bool :=
  if !e.retryable then false
  else if attempt ≥ maxAttempts then false
  else
    match e.type with
    | ErrorType.RATE_LIMIT => true
    | ErrorType.NETWORK => true
    | ErrorType.SERVER => true
    | ErrorType.TIMEOUT => true
    | ErrorType.AUTHENTICATION => false
    | ErrorType.PERMISSION => false
    | ErrorType.VALIDATION => false
    | _ => true

/-- Status-code classification of `ApiErrorHandler.handleApiError`
(src/unnamed/part_002:207-215), reached when the error body supplies
no explicit type. -/
def classifyStatus (status : Nat) : ErrorType :=
  if status = 401 ∨ status = 403 then ErrorType.AUTHENTICATION
  else if status = 429 then ErrorType.RATE_LIMIT
  else if status ≥ 500 then ErrorType.SERVER
  else ErrorType.UNKNOWN

/-- Retryability per `handleApiError` (src/unnamed/part_002:218):
`[RATE_LIMIT, SERVER, NETWORK].includes(errorType)`. -/
def errorRetryable (t : ErrorType) : Bool :=
  match t with
  | ErrorType.RATE_LIMIT => true
  | ErrorType.SERVER => true
  | ErrorType.NETWORK => true
  | _ => false

/-- The `AppError` built by `handleApiError` for a non-2xx response
whose body yields no structured error (message falls back to the HTTP
status text, src/unnamed/part_002:163-231). -/
def handleApiErrorStatus (serviceName : String) (status : Nat)
    (statusText : String) : AppError :=
  let errorType := classifyStatus status
  { message := serviceName ++ " API Error: " ++ statusText
    type := errorType
    retryable := errorRetryable errorType }

/-- A JS exception: either an `AppError` or any other error value
(only its message observed), mirroring the `error instanceof AppError`
test in `retryWithBackoff`. -/
inductive JsError where
  | appError (e : AppError)
  | other (message : String)
deriving DecidableEq, Repr

/-- Options of `ApiErrorHandler.retryWithBackoff`
(src/unnamed/part_002:299-305) with their JS defaults. -/
structure RetryOptions where
  maxAttempts : Nat := 3
  initialBackoff : ℚ := 1000
  shouldRetry : JsError → Nat → Bool := fun _ _ => true

/-- Backoff chosen inside the retry loop (src/unnamed/part_002:320-324):
`initialBackoff * 1.5^(attempt-1)`, overridden by the error's own
`getBackoffTime(attempt)` when the error is an `AppError`. -/
def retryBackoffTime (error : JsError) (attempt : Nat)
    (initialBackoff : ℚ) (jitter : ℚ) : ℚ :=
  match error with
  | JsError.appError e => e.getBackoffTime attempt jitter
  | JsError.other _ => initialBackoff * (3 / 2) ^ (attempt - 1)

/-- Body of the `for (attempt = 1; attempt <= maxAttempts; ...)` loop of
`retryWithBackoff` (src/unnamed/part_002:309-336).  `fn` gives the
operation's outcome per attempt number, `jitter` the sampled jitter per
attempt.  On success it returns the value, the succeeding attempt
number and the chronological list of waits.  The JS `attempt >=
maxAttempts || !shouldRetry(...)` guard is split into two nested tests
(short-circuit `||` has no side effects here). -/
def retryGo (fn : Nat → Except JsError Nat) (opts : RetryOptions)
    (jitter : Nat → ℚ) : Nat → Nat → List ℚ → Except JsError (Nat × Nat × List ℚ)
  | 0, _, _ =>
      Except.error (JsError.other "undefined lastError")
  | fuel + 1, attempt, waits =>
      if opts.maxAttempts < attempt then
        Except.error (JsError.other "undefined lastError")
      else
        match fn attempt with
        | Except.ok v => Except.ok (v, attempt, waits.reverse)
        | Except.error e =>
          if attempt ≥ opts.maxAttempts then Except.error e
          else if opts.shouldRetry e attempt = false then Except.error e
          else
            retryGo fn opts jitter fuel (attempt + 1)
              (retryBackoffTime e attempt opts.initialBackoff (jitter attempt) :: waits)

/-- `ApiErrorHandler.retryWithBackoff(fn, options)`
(src/unnamed/part_002:299-340).  The structural fuel
`opts.maxAttempts + 1` strictly exceeds the number of loop iterations
(each iteration increments `attempt`, which starts at 1 and is capped
by `maxAttempts`), so the fuel-exhausted branch is unreachable; JS
reaches `throw lastError` with `lastError` undefined only when
`maxAttempts = 0`, which the `maxAttempts < attempt` guard models. -/
def retryWithBackoff (fn : Nat → Except JsError Nat) (opts : RetryOptions)
    (jitter : Nat → ℚ) : Except JsError (Nat × Nat × List ℚ) :=
  retryGo fn opts jitter (opts.maxAttempts + 1) 1 []

/-- The error a provider 429 response is wrapped into: a retryable
`RATE_LIMIT` `AppError` (src/unnamed/part_002:211,218). -/
def rateLimit429 (serviceName : String) : AppError :=
  handleApiErrorStatus serviceName 429 "Too Many Requests"

/-- Scenario D's operation: HTTP 429 on attempts 1-3 (each classified
as a retryable rate-limit error) and HTTP 200 on attempt 4. -/
def scenarioD (attempt : Nat) : Except JsError Nat :=
  if attempt ≤ 3 then Except.error (JsError.appError (rateLimit429 "Groq"))
  else Except.ok 200

/-- C2 counterexample: with its DEFAULT options (`maxAttempts = 3`),
`retryWithBackoff` gives up after the third 429 and rejects — it never
reaches the 4th attempt, even though that attempt would return 200. -/
theorem retryWithBackoff_default_counterexample :
    retryWithBackoff scenarioD {} (fun _ => 0) =
      Except.error (JsError.appError (rateLimit429 "Groq")) ∧
    scenarioD 4 = Except.ok 200 :=
  ⟨rfl, rfl⟩

/-- C2 amended: invoked with `maxAttempts := 4` (not the default 3),
the 429-429-429-200 operation resolves successfully on the 4th attempt,
having waited the strictly increasing backoffs 2000 ms, 4000 ms and
8000 ms between attempts 1-2, 2-3 and 3-4. -/
theorem retryWithBackoff_four_attempts_scenarioD :
    retryWithBackoff scenarioD { maxAttempts := 4 } (fun _ => 0) =
      Except.ok (200, 4, [2000, 4000, 8000]) ∧
    List.Chain' (fun a b => a < b) ([2000, 4000, 8000] : List ℚ) := by
  constructor
  · have h : retryWithBackoff scenarioD { maxAttempts := 4 } (fun _ => 0) =
        Except.ok (200, 4, [mathMin 30000 (1000 * 2 ^ 1),
          mathMin 30000 (1000 * 2 ^ 2), mathMin 30000 (1000 * 2 ^ 3)]) := rfl
    rw [h]
    norm_num [mathMin]
  · simp
    norm_num

/-- Powers of a base at least one stay at least one. -/
theorem one_le_qpow (a : ℚ) (ha : 1 ≤ a) (n : Nat) : 1 ≤ a ^ n := by
  induction n with
  | zero => simp
  | succ k ih => rw [pow_succ]; nlinarith

/-- Key inequality behind RateLimit ≥ Network backoff:
`(3/2)^n + 1/2 ≤ 2^n` for `n ≥ 1`. -/
theorem three_half_pow_add_half_le_two_pow (n : Nat) (hn : 1 ≤ n) :
    ((3 : ℚ) / 2) ^ n + 1 / 2 ≤ 2 ^ n := by
  induction n, hn using Nat.le_induction with
  | base => norm_num
  | succ k hk ih =>
      rw [pow_succ, pow_succ]
      nlinarith [one_le_qpow (3 / 2) (by norm_num) k]

/-- C5: for a fixed error, `getBackoffTime` is non-decreasing in the
attempt number across any choice of per-attempt jitter in `[0, 500)`,
and the RateLimit backoff dominates the Network (default-branch)
backoff at every attempt `n ≥ 1`. -/
theorem getBackoffTime_monotone_and_ordered (e : AppError) (n : Nat)
    (j j' : ℚ) (hn : 1 ≤ n) (hj0 : 0 ≤ j) (hj5 : j < 500)
    (hj'0 : 0 ≤ j') (hj'5 : j' < 500) :
    AppError.getBackoffTime e n j ≤ AppError.getBackoffTime e (n + 1) j' ∧
    AppError.getBackoffTime { type := ErrorType.NETWORK } n j ≤
      AppError.getBackoffTime { type := ErrorType.RATE_LIMIT } n j' := by
  constructor
  · rcases e with ⟨msg, t, r⟩
    cases t
    case RATE_LIMIT =>
      simp only [AppError.getBackoffTime, mathMin_eq_min]
      apply min_le_min (le_refl _)
      rw [pow_succ]
      nlinarith [one_le_qpow 2 (by norm_num) n]
    case SERVER =>
      simp only [AppError.getBackoffTime, mathMin_eq_min]
      apply min_le_min (le_refl _)
      rw [pow_succ]
      nlinarith [one_le_qpow (3 / 2) (by norm_num) n]
    all_goals
      simp only [AppError.getBackoffTime, mathMin_eq_min]
      apply min_le_min (le_refl _)
      rw [pow_succ]
      nlinarith [one_le_qpow (3 / 2) (by norm_num) n]
  · have h1 : AppError.getBackoffTime { type := ErrorType.NETWORK } n j
        = mathMin 10000 (1000 * (3 / 2) ^ n + j) := rfl
    have h2 : AppError.getBackoffTime { type := ErrorType.RATE_LIMIT } n j'
        = mathMin 30000 (1000 * 2 ^ n) := rfl
    rw [h1, h2, mathMin_eq_min, mathMin_eq_min]
    apply le_min
    · exact le_trans (min_le_left _ _) (by norm_num)
    · refine le_trans (min_le_right _ _) ?_
      have hd := three_half_pow_add_half_le_two_pow n hn
      nlinarith [hd]

/-- Witness for C5 at the rate-limit kind, attempt 1, zero jitter. -/
theorem getBackoffTime_monotone_and_ordered_witness :
    AppError.getBackoffTime { type := ErrorType.RATE_LIMIT } 1 0 ≤
      AppError.getBackoffTime { type := ErrorType.RATE_LIMIT } 2 0 ∧
    AppError.getBackoffTime { type := ErrorType.NETWORK } 1 0 ≤
      AppError.getBackoffTime { type := ErrorType.RATE_LIMIT } 1 0 :=
  getBackoffTime_monotone_and_ordered { type := ErrorType.RATE_LIMIT } 1 0 0
    (by norm_num) (by norm_num) (by norm_num) (by norm_num) (by norm_num)

/-- A parsed JSON value (the result type of the JS `JSON.parse` calls
in `parseResponseContent`).  Numeric literals are restricted to
integers; none of the verified inputs contain fractions or exponents. -/
inductive Json where
  | null
  | bool (b : Bool)
  | num (n : Int)
  | str (s : String)
  | arr (elems : List Json)
  | obj (fields : List (String × Json))

/-- The character with a brace code point (123). -/
def lbrace : Char := Char.ofNat 123

/-- The character with a closing brace code point (125). -/
def rbrace : Char := Char.ofNat 125

/-- The backtick character (code point 96). -/
def btick : Char := Char.ofNat 96

/-- The characters of a string literal. -/
def chars (s : String) : List Char := s.data

/-- JSON whitespace accepted by `JSON.parse`: space, tab, LF, CR. -/
def isJsonWs (c : Char) : Bool :=
  c == ' ' || c == '\t' || c == '\n' || c == '\r'

/-- The JS regex class `\s`, restricted to ASCII (space, tab, LF, CR,
vertical tab, form feed); the Unicode additions never occur in the
verified inputs. -/
def isJsWs (c : Char) : Bool :=
  isJsonWs c || c == Char.ofNat 11 || c == Char.ofNat 12

/-- Value of one hexadecimal digit. -/
def hexVal (c : Char) : Option Nat :=
  if c.isDigit then some (c.toNat - 48)
  else if 'a' ≤ c ∧ c ≤ 'f' then some (c.toNat - 87)
  else if 'A' ≤ c ∧ c ≤ 'F' then some (c.toNat - 55)
  else none

/-- Single-character JSON string escapes. -/
def escChar (e : Char) : Option Char :=
  if e == '\"' then some '\"'
  else if e == '\\' then some '\\'
  else if e == '/' then some '/'
  else if e == 'b' then some (Char.ofNat 8)
  else if e == 'f' then some (Char.ofNat 12)
  else if e == 'n' then some '\n'
  else if e == 'r' then some '\r'
  else if e == 't' then some '\t'
  else none

/-- Body of a JSON string literal after the opening quote; returns the
decoded content and the remainder after the closing quote. -/
def parseStringBody : List Char → Option (List Char × List Char)
  | [] => none
  | c :: rest =>
    if c == '\"' then some ([], rest)
    else if c == '\\' then
      match rest with
      | [] => none
      | e :: rest2 =>
        if e == 'u' then
          match rest2 with
          | h1 :: h2 :: h3 :: h4 :: rest3 =>
            match hexVal h1, hexVal h2, hexVal h3, hexVal h4 with
            | some a, some b, some c2, some d =>
              (parseStringBody rest3).map
                (fun p => (Char.ofNat (((a * 16 + b) * 16 + c2) * 16 + d) :: p.1, p.2))
            | _, _, _, _ => none
          | _ => none
        else
          match escChar e with
          | some ec => (parseStringBody rest2).map (fun p => (ec :: p.1, p.2))
          | none => none
    else (parseStringBody rest).map (fun p => (c :: p.1, p.2))

/-- Digit run of a JSON number. -/
def parseNatAcc : Nat → List Char → Nat × List Char
  | acc, [] => (acc, [])
  | acc, c :: rest =>
    if c.isDigit then parseNatAcc (acc * 10 + (c.toNat - 48)) rest
    else (acc, c :: rest)

mutual

/-- Recursive JSON value parser underlying the model of `JSON.parse`.
The structural fuel strictly exceeds the input length at the top-level
call, and every recursive call consumes at least one character, so the
fuel never runs out on the inputs `jsonParse` passes in. -/
def parseValue : Nat → List Char → Option (Json × List Char)
  | 0, _ => none
  | fuel + 1, cs0 =>
    let cs := cs0.dropWhile isJsonWs
    match cs with
    | [] => none
    | c :: rest =>
      if c == '\"' then
        match parseStringBody rest with
        | some (content, rest2) => some (Json.str (String.mk content), rest2)
        | none => none
      else if c == '[' then
        let csr := rest.dropWhile isJsonWs
        if csr.head? == some ']' then
          some (Json.arr [], csr.tail)
        else
          match parseValue fuel rest with
          | some (v, cs2) =>
            match parseArrayTail fuel cs2 with
            | some (vs, cs3) => some (Json.arr (v :: vs), cs3)
            | none => none
          | none => none
      else if c == lbrace then
        let csr := rest.dropWhile isJsonWs
        if csr.head? == some rbrace then
          some (Json.obj [], csr.tail)
        else
          match parseField fuel rest with
          | some (f, cs2) =>
            match parseObjTail fuel cs2 with
            | some (fs, cs3) => some (Json.obj (f :: fs), cs3)
            | none => none
          | none => none
      else if (chars "null").isPrefixOf cs then some (Json.null, cs.drop 4)
      else if (chars "true").isPrefixOf cs then some (Json.bool true, cs.drop 4)
      else if (chars "false").isPrefixOf cs then some (Json.bool false, cs.drop 5)
      else if c == '-' then
        match rest with
        | d :: _ =>
          if d.isDigit then
            let p := parseNatAcc 0 rest
            some (Json.num (-(p.1 : Int)), p.2)
          else none
        | [] => none
      else if c.isDigit then
        let p := parseNatAcc 0 cs
        some (Json.num (p.1 : Int), p.2)
      else none

/-- Elements of a JSON array after the first element. -/
def parseArrayTail : Nat → List Char → Option (List Json × List Char)
  | 0, _ => none
  | fuel + 1, cs0 =>
    match cs0.dropWhile isJsonWs with
    | ']' :: rest => some ([], rest)
    | ',' :: rest =>
      match parseValue fuel rest with
      | some (v, cs2) =>
        match parseArrayTail fuel cs2 with
        | some (vs, cs3) => some (v :: vs, cs3)
        | none => none
      | none => none
    | _ => none

/-- One `"key": value` member of a JSON object. -/
def parseField : Nat → List Char → Option ((String × Json) × List Char)
  | 0, _ => none
  | fuel + 1, cs0 =>
    match cs0.dropWhile isJsonWs with
    | c :: rest =>
      if c == '\"' then
        match parseStringBody rest with
        | some (key, cs2) =>
          match cs2.dropWhile isJsonWs with
          | ':' :: cs4 =>
            match parseValue fuel cs4 with
            | some (v, cs5) => some ((String.mk key, v), cs5)
            | none => none
          | _ => none
        | none => none
      else none
    | [] => none

/-- Members of a JSON object after the first member. -/
def parseObjTail : Nat → List Char → Option (List (String × Json) × List Char)
  | 0, _ => none
  | fuel + 1, cs0 =>
    match cs0.dropWhile isJsonWs with
    | c :: rest =>
      if c == rbrace then some ([], rest)
      else if c == ',' then
        match parseField fuel rest with
        | some (f, cs2) =>
          match parseObjTail fuel cs2 with
          | some (fs, cs3) => some (f :: fs, cs3)
          | none => none
        | none => none
      else none
    | [] => none

end

/-- Model of JS `JSON.parse`: parse one value and require only
whitespace to remain. -/
def jsonParse (s : String) : Option Json :=
  match parseValue (s.length + 2) s.data with
  | some (v, rest) => if (rest.dropWhile isJsonWs).isEmpty then some v else none
  | none => none

/-- Whether the remaining text matches the tail `\s*` followed by a
three-backtick fence. -/
def fenceAfter (cs : List Char) : Bool :=
  [btick, btick, btick].isPrefixOf (cs.dropWhile isJsWs)

/-- Lazy body of the fenced-block capture: after the opening brace,
take the shortest run of arbitrary characters followed by a closing
brace whose remainder is `\s*` then a closing fence, mirroring the
backtracking of the lazy quantifier in the block regex of
`parseResponseContent` (base-service.js:240). -/
def braceBody : List Char → List Char → Option (List Char)
  | _, [] => none
  | acc, c :: rest =>
    if c == rbrace && fenceAfter rest then
      some (lbrace :: (acc.reverse ++ [rbrace]))
    else braceBody (c :: acc) rest

/-- Attempt of the fenced-block regex at one start position: an
opening fence, an optional literal "json" (tried greedily first, as
the regex engine does), `\s*`, then the lazily captured brace group
followed by `\s*` and a closing fence. -/
def tryFenceAt (cs : List Char) : Option (List Char) :=
  match cs with
  | c1 :: c2 :: c3 :: rest =>
    if c1 == btick && c2 == btick && c3 == btick then
      let attempt := fun (r : List Char) =>
        match r.dropWhile isJsWs with
        | d :: body => if d == lbrace then braceBody [] body else none
        | [] => none
      if (chars "json").isPrefixOf rest then
        match attempt (rest.drop 4) with
        | some g => some g
        | none => attempt rest
      else attempt rest
    else none
  | _ => none

/-- Leftmost match of the fenced-code-block regex
(base-service.js:240), scanning start positions left to right. -/
def blockMatchList : List Char → Option (List Char)
  | [] => none
  | c :: rest =>
    match tryFenceAt (c :: rest) with
    | some g => some g
    | none => blockMatchList rest

/-- `content.match(blockRegex)` group 1 (base-service.js:240-244). -/
def blockMatch (content : String) : Option String :=
  (blockMatchList content.data).map String.mk

/-- The literal `"commands"` (with its quotes) looked for by the
object-extraction regex. -/
def commandsPat : List Char := '\"' :: (chars "commands") ++ ['\"']

/-- Attempt of the `"commands"`-object regex (base-service.js:255) at
one start position: an opening brace, then a greedy gap — realised as
the rightmost occurrence of the quoted `"commands"` key that still has
a closing brace after it — then a lazy gap ending at the first closing
brace.  An occurrence cannot begin at the opening brace itself because
the pattern starts with a quote. -/
def tryCommandsAt (cs : List Char) : Option (List Char) :=
  match cs with
  | c :: _ =>
    if c == lbrace then
      let occs := (List.range cs.length).filter (fun i =>
        commandsPat.isPrefixOf (cs.drop i) &&
          (cs.drop (i + commandsPat.length)).contains rbrace)
      match occs.getLast? with
      | some o =>
        match (cs.drop (o + commandsPat.length)).findIdx? (fun d => d == rbrace) with
        | some k => some (cs.take (o + commandsPat.length + k + 1))
        | none => none
      | none => none
    else none
  | [] => none

/-- Leftmost match of the `"commands"`-object regex, scanning start
positions left to right. -/
def commandsMatchList : List Char → Option (List Char)
  | [] => none
  | c :: rest =>
    match tryCommandsAt (c :: rest) with
    | some g => some g
    | none => commandsMatchList rest

/-- `content.match(commandsRegex)` group 1 (base-service.js:255-256). -/
def commandsMatch (content : String) : Option String :=
  (commandsMatchList content.data).map String.mk

/-- Raw-content truncation used by the parsing-failure fallback
(src/unnamed/part_002:282): first 500 characters, with an ellipsis
when anything was cut. -/
def truncateForDiag (content : String) : String :=
  content.take 500 ++ (if content.length > 500 then "..." else "")

/-- `ApiErrorHandler.handleParsingError(error, content)`
(src/unnamed/part_002:272-288): the synthetic fallback plan with one
diagnostic pseudo-command.  `errorDetail` carries the JS exception
message, which is host-specific; the callers below pass fixed stand-in
strings. -/
def handleParsingError (errorDetail : String) (content : String) : Json :=
  Json.obj [
    ("commands", Json.arr [Json.obj [
      ("action", Json.str "error"),
      ("message", Json.str "Failed to parse response. Please try again."),
      ("errorDetail", Json.str errorDetail),
      ("rawContent", Json.str (truncateForDiag content))]]),
    ("isComplete", Json.bool false),
    ("completionMessage", Json.str "Error parsing response")]

/-- `parseResponseContent(content)` (base-service.js:234-279): the
fenced-block extraction replaces the text to parse when a block is
present; one `JSON.parse` attempt follows; on failure the
`"commands"`-object regex runs over the original content and its
capture is parsed; any remaining failure degrades to
`handleParsingError`. -/
def parseResponseContent (content : String) : Json :=
  let jsonContent :=
    match blockMatch content with
    | some extracted => extracted
    | none => content
  match jsonParse jsonContent with
  | some parsedCommands => parsedCommands
  | none =>
    match commandsMatch content with
    | some extracted2 =>
      match jsonParse extracted2 with
      | some parsedCommands => parsedCommands
      | none => handleParsingError "Failed to parse extracted JSON" content
    | none => handleParsingError "No JSON object found in content" content

/-- Modelled from the spec's words for claim C1, NOT from the code:
strategies attempted strictly in the order (a) direct parse of the
whole content, (b) extraction from a fenced code block, (c) regex
extraction of the first object containing a "commands" key, each
strategy tried only after every earlier one failed. -/
def parseResponseContentSpecOrder (content : String) : Json :=
  match jsonParse content with
  | some v => v
  | none =>
    match (blockMatch content).bind (fun b => jsonParse b) with
    | some v => v
    | none =>
      match (commandsMatch content).bind (fun m => jsonParse m) with
      | some v => v
      | none => handleParsingError "all strategies failed" content

/-- Field lookup on a parsed JSON object. -/
def Json.getField : Json → String → Option Json
  | Json.obj fields, key => fields.lookup key
  | _, _ => none

/-- C1 counterexample: on a content string that is, in its entirety, a
valid JSON string literal which happens to contain a fenced code
block, the code parses the fenced block (yielding the empty object),
while the claimed order — direct parse of the whole content first —
would yield the JSON string; the two orders disagree, so the code does
not attempt the direct whole-content parse before the fenced-block
extraction. -/
theorem parseResponseContent_order_counterexample :
    parseResponseContent "\"```json \x7b\x7d ```\"" = Json.obj [] ∧
    parseResponseContentSpecOrder "\"```json \x7b\x7d ```\"" =
      Json.str "```json \x7b\x7d ```" ∧
    parseResponseContent "\"```json \x7b\x7d ```\"" ≠
      parseResponseContentSpecOrder "\"```json \x7b\x7d ```\"" := by
  refine ⟨rfl, rfl, ?_⟩
  intro h
  have h2 : Json.obj [] = Json.str "```json \x7b\x7d ```" := by
    calc Json.obj ([] : List (String × Json))
        = parseResponseContent "\"```json \x7b\x7d ```\"" := rfl
      _ = parseResponseContentSpecOrder "\"```json \x7b\x7d ```\"" := h
      _ = Json.str "```json \x7b\x7d ```" := rfl
  exact Json.noConfusion h2

/-- C1 amended: `parseResponseContent` first replaces the content by
the fenced-code-block capture when one is present, then makes a single
direct `JSON.parse` attempt on that (possibly replaced) text — so the
whole content is direct-parsed only when no fenced block exists — and
only after that parse fails does it fall back to regex extraction of
the first object containing a "commands" key. -/
theorem parseResponseContent_strategy_order (content : String) :
    (∀ b v, blockMatch content = some b → jsonParse b = some v →
      parseResponseContent content = v) ∧
    (blockMatch content = none → ∀ v, jsonParse content = some v →
      parseResponseContent content = v) ∧
    ((jsonParse ((blockMatch content).getD content)).isNone = true →
      ∀ m v, commandsMatch content = some m → jsonParse m = some v →
        parseResponseContent content = v) := by
  refine ⟨?_, ?_, ?_⟩
  · intro b v hb hv
    simp [parseResponseContent, hb, hv]
  · intro hb v hv
    simp [parseResponseContent, hb, hv]
  · intro h1 m v hm hv
    cases hb : blockMatch content with
    | none =>
        have hc : jsonParse content = none := by
          rw [hb] at h1
          simpa using h1
        simp [parseResponseContent, hb, hc, hm, hv]
    | some b =>
        have hc : jsonParse b = none := by
          rw [hb] at h1
          simpa using h1
        simp [parseResponseContent, hb, hc, hm, hv]

/-- Witness for the amended C1: the fenced block of the counterexample
content parses and wins. -/
theorem parseResponseContent_strategy_order_witness :
    parseResponseContent "\"```json \x7b\x7d ```\"" = Json.obj [] :=
  (parseResponseContent_strategy_order "\"```json \x7b\x7d ```\"").1 "\x7b\x7d"
    (Json.obj []) rfl rfl

/-- Structure of the fallback plan: `isComplete` is false, and the
command list holds exactly one pseudo-command whose action is "error"
and whose `rawContent` is the truncated raw text. -/
theorem handleParsingError_fields (detail content : String) :
    Json.getField (handleParsingError detail content) "isComplete" =
      some (Json.bool false) ∧
    Json.getField (handleParsingError detail content) "commands" =
      some (Json.arr [Json.obj [
        ("action", Json.str "error"),
        ("message", Json.str "Failed to parse response. Please try again."),
        ("errorDetail", Json.str detail),
        ("rawContent", Json.str (truncateForDiag content))]]) :=
  ⟨rfl, rfl⟩

/-- C6: whenever every JSON extraction strategy fails — the single
parse attempt on the (block-replaced) content fails and the
"commands"-regex capture is absent or unparsable — `parseResponseContent`
does not throw: it returns the synthetic fallback plan, whose
`isComplete` is false and whose command list holds exactly one
diagnostic pseudo-command with action "error" carrying the truncated
raw content. -/
theorem parseResponseContent_fallback (content : String)
    (h1 : (jsonParse ((blockMatch content).getD content)).isNone = true)
    (h2 : (commandsMatch content).all (fun m => (jsonParse m).isNone) = true) :
    (∃ detail, parseResponseContent content = handleParsingError detail content) ∧
    Json.getField (parseResponseContent content) "isComplete" =
      some (Json.bool false) ∧
    ∃ cmd, Json.getField (parseResponseContent content) "commands" =
        some (Json.arr [cmd]) ∧
      Json.getField cmd "action" = some (Json.str "error") ∧
      Json.getField cmd "rawContent" = some (Json.str (truncateForDiag content)) := by
  have hpc : ∃ detail, parseResponseContent content = handleParsingError detail content := by
    cases hb : blockMatch content with
    | none =>
        have hc : jsonParse content = none := by
          rw [hb] at h1
          simpa using h1
        cases hm : commandsMatch content with
        | none =>
            exact ⟨"No JSON object found in content",
              by simp [parseResponseContent, hb, hc, hm]⟩
        | some m =>
            have hjm : jsonParse m = none := by
              rw [hm] at h2
              simpa [Option.all] using h2
            exact ⟨"Failed to parse extracted JSON",
              by simp [parseResponseContent, hb, hc, hm, hjm]⟩
    | some b =>
        have hc : jsonParse b = none := by
          rw [hb] at h1
          simpa using h1
        cases hm : commandsMatch content with
        | none =>
            exact ⟨"No JSON object found in content",
              by simp [parseResponseContent, hb, hc, hm]⟩
        | some m =>
            have hjm : jsonParse m = none := by
              rw [hm] at h2
              simpa [Option.all] using h2
            exact ⟨"Failed to parse extracted JSON",
              by simp [parseResponseContent, hb, hc, hm, hjm]⟩
  obtain ⟨detail, hd⟩ := hpc
  refine ⟨⟨detail, hd⟩, ?_, ?_⟩
  · rw [hd]
    rfl
  · refine ⟨Json.obj [
      ("action", Json.str "error"),
      ("message", Json.str "Failed to parse response. Please try again."),
      ("errorDetail", Json.str detail),
      ("rawContent", Json.str (truncateForDiag content))], ?_, rfl, rfl⟩
    rw [hd]
    rfl

/-- Witness for C6: the non-JSON content "hello" defeats all three
strategies and yields the fallback plan with `isComplete` false. -/
theorem parseResponseContent_fallback_witness :
    Json.getField (parseResponseContent "hello") "isComplete" =
      some (Json.bool false) :=
  (parseResponseContent_fallback "hello" rfl rfl).2.1

/-- Witness for C8: in the split of a navigate-then-click plan, the
first produced group carries its navigate with at most one occurrence. -/
theorem splitCommandsAtNavigation_group_invariant_witness :
    ([{ action := "navigate" : Command }].filter isNavigate).length ≤ 1 :=
  ((splitCommandsAtNavigation_group_invariant
      [{ action := "navigate" }, { action := "click" }]).1
    [{ action := "navigate" }] (by decide)).2.2
